import Mathlib

/-!
Shallow embedding of the 2D skeletal-animation core of `bone_system.py`
(classes `Bone`, `Chain`, `Skeleton`).

Machine floats are modelled as real numbers.  Python's `math.atan2 y x` is
modelled by the argument of the complex number `x + y·i`, which follows the
same convention (range `(-π, π]`, and `atan2 0 0 = 0`).
`pygame.math.Vector2.length` is `√(x² + y²)`.

A chain's parent links (`bone.parent = bones[i-1]`, set once at chain
construction) are represented by list adjacency: every loop that reads a
parent or predecessor is modelled as a structural recursion that passes the
already-updated predecessor along, in exactly the order the Python loops run.

Python string handling (`str.lower()`, `str.endswith`) is modelled on the
underlying character lists.
-/

/-- Python `math.atan2 y x`: the argument of the complex number `x + y·i`.
Like Python's `atan2`, it sends `(0, 0)` to `0`. -/
noncomputable def atan2 (y x : ℝ) : ℝ := Complex.arg ⟨x, y⟩

/-- Python `str.lower()`, at the character-list level. -/
def strLowerData (s : String) : List Char := s.data.map Char.toLower

/-- Python `str.endswith(suffix)` on an already-lower-cased character list. -/
def dataEndsWith (l : List Char) (suffix : String) : Bool := suffix.data.isSuffixOf l

/-- The `Bone` state (`Bone.__init__`, bone_system.py lines 4-19).
`sprite` holds the `(width, height)` of `sprite_original` when a sprite is
loaded and `none` otherwise; the pixel data itself never enters the
kinematics.  The `parent` back-reference is represented by list adjacency in
`Chain` below, and the `selected` flag plays no role in any claim. -/
structure Bone where
  x : ℝ
  y : ℝ
  original_length : ℝ
  length : ℝ
  angle : ℝ
  anchor_x : ℝ
  anchor_y : ℝ
  visual_x : ℝ
  visual_y : ℝ
  sprite : Option (ℕ × ℕ)

/-- `Bone(x, y, length, angle)`: anchors default to `(0.5, 0.5)`, the visual
position starts at the pivot, no sprite is loaded. -/
def mkBone (x y len angle : ℝ) : Bone :=
  { x := x, y := y, original_length := len, length := len, angle := angle,
    anchor_x := 0.5, anchor_y := 0.5, visual_x := x, visual_y := y, sprite := none }

/-- `Bone.set_anchor_from_filename` (lines 39-68): the filename is lower-cased,
then matched against the `('_l.png', '_left.png')`-style suffix tuples; with no
suffix match the anchor comes from the sprite dimensions (`width >= height`),
or defaults to `(0.0, 0.5)` when no sprite is loaded. -/
def Bone.set_anchor_from_filename (b : Bone) (filename : String) : Bone :=
  if dataEndsWith (strLowerData filename) "_l.png" ||
     dataEndsWith (strLowerData filename) "_left.png" then
    { b with anchor_x := 1.0, anchor_y := 0.5 }
  else if dataEndsWith (strLowerData filename) "_r.png" ||
          dataEndsWith (strLowerData filename) "_right.png" then
    { b with anchor_x := 0.0, anchor_y := 0.5 }
  else if dataEndsWith (strLowerData filename) "_u.png" ||
          dataEndsWith (strLowerData filename) "_up.png" then
    { b with anchor_x := 0.5, anchor_y := 1.0 }
  else if dataEndsWith (strLowerData filename) "_d.png" ||
          dataEndsWith (strLowerData filename) "_down.png" then
    { b with anchor_x := 0.5, anchor_y := 0.0 }
  else
    match b.sprite with
    | some (w, h) =>
        if h ≤ w then { b with anchor_x := 0.0, anchor_y := 0.5 }
        else { b with anchor_x := 0.5, anchor_y := 0.0 }
    | none => { b with anchor_x := 0.0, anchor_y := 0.5 }

/-- `Bone.set_anchor` (lines 70-73): each component is clamped into `[0, 1]`
with `max(0.0, min(1.0, _))` before being stored; nothing is rejected. -/
def Bone.set_anchor (b : Bone) (ax ay : ℝ) : Bone :=
  { b with anchor_x := max 0 (min 1 ax), anchor_y := max 0 (min 1 ay) }

/-- `Bone.update_visual_position` (lines 97-106). -/
def Bone.update_visual_position (b : Bone) : Bone :=
  match b.sprite with
  | some (w, h) =>
      { b with visual_x := b.x - b.anchor_x * (w : ℝ),
               visual_y := b.y - b.anchor_y * (h : ℝ) }
  | none => { b with visual_x := b.x, visual_y := b.y }

/-- `Bone.end_pos` (lines 108-110). -/
noncomputable def Bone.end_pos (b : Bone) : ℝ × ℝ :=
  (b.x + Real.cos b.angle * b.length, b.y + Real.sin b.angle * b.length)

/-- `Bone.follow(tx, ty)` (lines 84-95): the angle is set toward the target
unconditionally; only when the target vector has positive length is the pivot
slid back from the target by one bone length; finally the visual position is
recomputed. -/
noncomputable def Bone.follow (b : Bone) (tx ty : ℝ) : Bone :=
  Bone.update_visual_position
    (if 0 < Real.sqrt ((tx - b.x) ^ 2 + (ty - b.y) ^ 2) then
      { b with
          angle := atan2 (ty - b.y) (tx - b.x),
          x := tx - (tx - b.x) / Real.sqrt ((tx - b.x) ^ 2 + (ty - b.y) ^ 2) * b.length,
          y := ty - (ty - b.y) / Real.sqrt ((tx - b.x) ^ 2 + (ty - b.y) ^ 2) * b.length }
    else { b with angle := atan2 (ty - b.y) (tx - b.x) })

/-- The clamp parameter `t` of `Bone.contains` (line 123): the projection of
`(px, py)` onto the segment direction, divided by the squared segment length
unless that is zero (Python's `... if C*C + D*D else 0`), clamped into
`[0, 1]`. -/
noncomputable def Bone.segT (b : Bone) (px py : ℝ) : ℝ :=
  max 0 (min 1
    (if (b.end_pos.1 - b.x) * (b.end_pos.1 - b.x) + (b.end_pos.2 - b.y) * (b.end_pos.2 - b.y) = 0
     then 0
     else ((px - b.x) * (b.end_pos.1 - b.x) + (py - b.y) * (b.end_pos.2 - b.y)) /
          ((b.end_pos.1 - b.x) * (b.end_pos.1 - b.x) + (b.end_pos.2 - b.y) * (b.end_pos.2 - b.y))))

/-- The squared distance `dx*dx + dy*dy` computed by `Bone.contains`
(line 124): distance from the query point to the clamped projection point on
the segment. -/
noncomputable def Bone.distSqToSegment (b : Bone) (px py : ℝ) : ℝ :=
  (px - (b.x + b.segT px py * (b.end_pos.1 - b.x))) *
    (px - (b.x + b.segT px py * (b.end_pos.1 - b.x))) +
  (py - (b.y + b.segT px py * (b.end_pos.2 - b.y))) *
    (py - (b.y + b.segT px py * (b.end_pos.2 - b.y)))

/-- `Bone.contains` (lines 119-125): the squared distance to the segment is
strictly below `225 = 15²`. -/
noncomputable def Bone.contains (b : Bone) (px py : ℝ) : Prop :=
  b.distSqToSegment px py < 225

/-- Distance from `(px, py)` to the segment `[pivot, end_pos]`, in the form the
spec describes it: distance to the projection point clamped to the segment
(not to the infinite line). -/
noncomputable def Bone.distToSegment (b : Bone) (px py : ℝ) : ℝ :=
  Real.sqrt (b.distSqToSegment px py)

/-- One `Bone.update` call (lines 112-117) for a bone that has a parent: the
pivot snaps to the parent's end position and the visual position is
recomputed.  The parent passed in is the predecessor already updated earlier
in the same sweep, exactly as in the Python loop. -/
noncomputable def Bone.updateFrom (parent b : Bone) : Bone :=
  Bone.update_visual_position { b with x := parent.end_pos.1, y := parent.end_pos.2 }

/-- The part of `Chain.fk` (lines 275-277) that walks the bones after the
root: each bone's `update()` reads the predecessor updated in the same
sweep. -/
noncomputable def Chain.fkAux (prev : Bone) : List Bone → List Bone
  | [] => []
  | b :: rest => Bone.updateFrom prev b :: Chain.fkAux (Bone.updateFrom prev b) rest

/-- `Chain.fk` (lines 275-277): `bone.update()` over the list in order.  The
root bone has no parent, so its `update` is a no-op. -/
noncomputable def Chain.fk (bones : List Bone) : List Bone :=
  match bones with
  | [] => []
  | b :: rest => b :: Chain.fkAux b rest

/-- The backward pass of `Chain.ik` (lines 283-286) written over the reversed
bone list (tip first): the tip follows the target, then each earlier bone
follows the just-updated pivot of its successor. -/
noncomputable def Chain.backwardAux (tx ty : ℝ) : List Bone → List Bone
  | [] => []
  | b :: rest =>
      Bone.follow b tx ty ::
        Chain.backwardAux (Bone.follow b tx ty).x (Bone.follow b tx ty).y rest

/-- The backward pass of `Chain.ik` on the bone list in chain order. -/
noncomputable def Chain.backward (bones : List Bone) (tx ty : ℝ) : List Bone :=
  (Chain.backwardAux tx ty bones.reverse).reverse

/-- One step of the forward pass of `Chain.ik` (lines 292-303): re-root the
bone at the already-updated predecessor's end, re-aim it along the direction
from there to its own (backward-pass) end scaled to its length, and recompute
the visual position — all guarded by `dist > 0`. -/
noncomputable def Chain.forwardStep (prev b : Bone) : Bone :=
  if 0 < Real.sqrt ((b.end_pos.1 - prev.end_pos.1) * (b.end_pos.1 - prev.end_pos.1) +
                    (b.end_pos.2 - prev.end_pos.2) * (b.end_pos.2 - prev.end_pos.2)) then
    Bone.update_visual_position
      { b with
          x := prev.end_pos.1,
          y := prev.end_pos.2,
          angle := atan2
            ((b.end_pos.2 - prev.end_pos.2) /
               Real.sqrt ((b.end_pos.1 - prev.end_pos.1) * (b.end_pos.1 - prev.end_pos.1) +
                          (b.end_pos.2 - prev.end_pos.2) * (b.end_pos.2 - prev.end_pos.2)) * b.length)
            ((b.end_pos.1 - prev.end_pos.1) /
               Real.sqrt ((b.end_pos.1 - prev.end_pos.1) * (b.end_pos.1 - prev.end_pos.1) +
                          (b.end_pos.2 - prev.end_pos.2) * (b.end_pos.2 - prev.end_pos.2)) * b.length) }
  else b

/-- The forward pass of `Chain.ik` (lines 292-303) over the bones after the
root. -/
noncomputable def Chain.forwardAux (prev : Bone) : List Bone → List Bone
  | [] => []
  | b :: rest => Chain.forwardStep prev b :: Chain.forwardAux (Chain.forwardStep prev b) rest

/-- `Chain.ik(tx, ty)` (lines 279-303): save the root pivot, run the backward
pass, restore the root pivot and recompute its visual position, then run the
forward pass over the remaining bones.  (Python raises on an empty bone list;
chains always hold at least one bone, so the `[]` branches are unreachable.) -/
noncomputable def Chain.ik (bones : List Bone) (tx ty : ℝ) : List Bone :=
  match bones with
  | [] => []
  | b0 :: rest =>
      match Chain.backward (b0 :: rest) tx ty with
      | [] => []
      | c0 :: crest =>
          Bone.update_visual_position { c0 with x := b0.x, y := b0.y } ::
            Chain.forwardAux (Bone.update_visual_position { c0 with x := b0.x, y := b0.y }) crest

/-- The bone layout performed by `Chain.__init__` (lines 182-236) when no
explicit positions are given and no sprite file is available: every bone is
created at the chain's world origin with angle `0` and keeps its authored
length (`load_sprite` falls back to `original_length` on failure), and then
`bone.update()` runs over the list in order — which is exactly `Chain.fk`. -/
noncomputable def Chain.mkChainBones (x y : ℝ) (lengths : List ℝ) : List Bone :=
  Chain.fk (lengths.map (fun len => mkBone x y len 0))

/-- The `Chain` state acted on by `Skeleton` moves.  `target` models the
`self.target` attribute that exists exactly on IK chains; the control `mode`
and the `selected` index play no role in the claims below. -/
structure Chain where
  bones : List Bone
  local_x : ℝ
  local_y : ℝ
  is_ik : Bool
  target : ℝ × ℝ

/-- `Chain.update_world_positions` (lines 257-273) for a chain owned by a
skeleton positioned at `(sx, sy)`: the root bone's pivot snaps to the chain's
world origin and its visual position is recomputed; then the chain re-solves —
`ik` with the stored world-space target for IK chains, `fk` otherwise. -/
noncomputable def Chain.update_world_positions (c : Chain) (sx sy : ℝ) : Chain :=
  match c.bones with
  | [] => c
  | b0 :: rest =>
      if c.is_ik then
        { c with bones :=
            (Chain.ik
              (Bone.update_visual_position { b0 with x := c.local_x + sx, y := c.local_y + sy } :: rest)
              c.target.1 c.target.2) }
      else
        { c with bones :=
            (Chain.fk
              (Bone.update_visual_position { b0 with x := c.local_x + sx, y := c.local_y + sy } :: rest)) }

/-- The `Skeleton` state (lines 361-374): name, world position, owned
chains. -/
structure Skeleton where
  name : String
  x : ℝ
  y : ℝ
  chains : List Chain

/-- `Skeleton.move` (lines 396-401): translate the skeleton's world position,
then call `update_world_positions` on every owned chain. -/
noncomputable def Skeleton.move (s : Skeleton) (dx dy : ℝ) : Skeleton :=
  { s with
      x := s.x + dx, y := s.y + dy,
      chains := s.chains.map (fun c => c.update_world_positions (s.x + dx) (s.y + dy)) }

/-- World pivot of a chain's root bone, when the chain has one. -/
def chainRootPivot (c : Chain) : Option (ℝ × ℝ) :=
  match c.bones with
  | [] => none
  | b :: _ => some (b.x, b.y)

/-- The spec's `resolveAnchorFromName(name, width, height)` branch table, with
the suffixes amended to the `.png`-qualified, case-insensitive forms the code
actually tests; `dims` is `none` when no sprite dimensions are available. -/
def resolveAnchorFromName (name : String) (dims : Option (ℕ × ℕ)) : ℝ × ℝ :=
  if dataEndsWith (strLowerData name) "_l.png" ||
     dataEndsWith (strLowerData name) "_left.png" then (1.0, 0.5)
  else if dataEndsWith (strLowerData name) "_r.png" ||
          dataEndsWith (strLowerData name) "_right.png" then (0.0, 0.5)
  else if dataEndsWith (strLowerData name) "_u.png" ||
          dataEndsWith (strLowerData name) "_up.png" then (0.5, 1.0)
  else if dataEndsWith (strLowerData name) "_d.png" ||
          dataEndsWith (strLowerData name) "_down.png" then (0.5, 0.0)
  else
    match dims with
    | some (w, h) => if h ≤ w then (0.0, 0.5) else (0.5, 0.0)
    | none => (0.0, 0.5)

/-- A one-bone FK chain whose root pivot (5, 7) differs from its chain world
origin (0, 0): reachable through `Skeleton.add_chain` with explicit bone
positions, since `add_chain` does not call `update_world_positions`. -/
def customSkeleton : Skeleton :=
  { name := "demo", x := 0, y := 0,
    chains := [{ bones := [mkBone 5 7 10 0], local_x := 0, local_y := 0,
                 is_ik := false, target := (0, 0) }] }

-- ### Helper lemmas

@[simp]
theorem update_visual_x (b : Bone) : (Bone.update_visual_position b).x = b.x := by
  rcases b with ⟨x, y, ol, l, a, ax, ay, vx, vy, _ | ⟨w, h⟩⟩ <;>
    simp [Bone.update_visual_position]

@[simp]
theorem update_visual_y (b : Bone) : (Bone.update_visual_position b).y = b.y := by
  rcases b with ⟨x, y, ol, l, a, ax, ay, vx, vy, _ | ⟨w, h⟩⟩ <;>
    simp [Bone.update_visual_position]

@[simp]
theorem update_visual_angle (b : Bone) : (Bone.update_visual_position b).angle = b.angle := by
  rcases b with ⟨x, y, ol, l, a, ax, ay, vx, vy, _ | ⟨w, h⟩⟩ <;>
    simp [Bone.update_visual_position]

@[simp]
theorem update_visual_length (b : Bone) : (Bone.update_visual_position b).length = b.length := by
  rcases b with ⟨x, y, ol, l, a, ax, ay, vx, vy, _ | ⟨w, h⟩⟩ <;>
    simp [Bone.update_visual_position]

@[simp]
theorem update_visual_end_pos (b : Bone) :
    (Bone.update_visual_position b).end_pos = b.end_pos := by
  simp [Bone.end_pos]

theorem update_visual_none (b : Bone) (h : b.sprite = none) :
    Bone.update_visual_position b = { b with visual_x := b.x, visual_y := b.y } := by
  rw [Bone.update_visual_position, h]

theorem sqrt_2500 : Real.sqrt 2500 = 50 := by
  rw [show (2500 : ℝ) = 50 ^ 2 by norm_num, Real.sqrt_sq (by norm_num : (0 : ℝ) ≤ 50)]

theorem abs_complex_mk (x y : ℝ) : Complex.abs ⟨x, y⟩ = Real.sqrt (x ^ 2 + y ^ 2) := by
  rw [Complex.abs_apply, Complex.normSq_mk]
  ring_nf

theorem atan2_zero_zero : atan2 0 0 = 0 := by
  have h : (⟨0, 0⟩ : ℂ) = 0 := by
    apply Complex.ext <;> simp
  rw [atan2, h, Complex.arg_zero]

theorem atan2_zero_of_pos {x : ℝ} (hx : 0 < x) : atan2 0 x = 0 := by
  have h : (⟨x, 0⟩ : ℂ) = (x : ℂ) := by
    apply Complex.ext <;> simp
  rw [atan2, h, Complex.arg_ofReal_of_nonneg hx.le]

theorem cos_atan2 {y x : ℝ} (h : Real.sqrt (x ^ 2 + y ^ 2) ≠ 0) :
    Real.cos (atan2 y x) = x / Real.sqrt (x ^ 2 + y ^ 2) := by
  have hz : (⟨x, y⟩ : ℂ) ≠ 0 := by
    intro h0
    apply h
    have hx : x = 0 := by
      have := congrArg Complex.re h0
      simpa using this
    have hy : y = 0 := by
      have := congrArg Complex.im h0
      simpa using this
    simp [hx, hy]
  rw [atan2, Complex.cos_arg hz, abs_complex_mk]

theorem sin_atan2 (y x : ℝ) :
    Real.sin (atan2 y x) = y / Real.sqrt (x ^ 2 + y ^ 2) := by
  rw [atan2, Complex.sin_arg, abs_complex_mk]

theorem follow_pos_eval (b : Bone) (tx ty d : ℝ)
    (hd : Real.sqrt ((tx - b.x) ^ 2 + (ty - b.y) ^ 2) = d) (h0 : 0 < d) :
    Bone.follow b tx ty = Bone.update_visual_position
      { b with
          angle := atan2 (ty - b.y) (tx - b.x),
          x := tx - (tx - b.x) / d * b.length,
          y := ty - (ty - b.y) / d * b.length } := by
  rw [Bone.follow, hd, if_pos h0]

theorem follow_self_eval (b : Bone) :
    Bone.follow b b.x b.y = Bone.update_visual_position { b with angle := 0 } := by
  rw [Bone.follow]
  have h : Real.sqrt ((b.x - b.x) ^ 2 + (b.y - b.y) ^ 2) = 0 := by simp
  rw [h, if_neg (lt_irrefl 0)]
  have ha : atan2 (b.y - b.y) (b.x - b.x) = 0 := by
    simp only [sub_self]
    exact atan2_zero_zero
  rw [ha]

-- ### Claim theorems

/-- Claim C7 (confirmed): `set_anchor` stores each anchor component clamped to
`[0, 1]` for all real inputs — a total function, never rejecting a value — and
in particular `set_anchor (-1) 2` stores anchor `(0.0, 1.0)`. -/
theorem set_anchor_clamps :
    (∀ (b : Bone) (ax ay : ℝ),
      (b.set_anchor ax ay).anchor_x = max 0 (min 1 ax) ∧
      (b.set_anchor ax ay).anchor_y = max 0 (min 1 ay) ∧
      0 ≤ (b.set_anchor ax ay).anchor_x ∧ (b.set_anchor ax ay).anchor_x ≤ 1 ∧
      0 ≤ (b.set_anchor ax ay).anchor_y ∧ (b.set_anchor ax ay).anchor_y ≤ 1) ∧
    ∀ b : Bone, (b.set_anchor (-1) 2).anchor_x = 0 ∧ (b.set_anchor (-1) 2).anchor_y = 1 := by
  constructor
  · intro b ax ay
    refine ⟨rfl, rfl, le_max_left _ _, ?_, le_max_left _ _, ?_⟩
    · exact max_le (by norm_num) (min_le_left _ _)
    · exact max_le (by norm_num) (min_le_left _ _)
  · intro b
    constructor
    · show max 0 (min 1 (-1 : ℝ)) = 0
      rw [min_eq_right (by norm_num : (-1 : ℝ) ≤ 1)]
      rw [max_eq_left (by norm_num : (-1 : ℝ) ≤ 0)]
    · show max 0 (min 1 (2 : ℝ)) = 1
      rw [min_eq_left (by norm_num : (1 : ℝ) ≤ 2)]
      rw [max_eq_right (by norm_num : (0 : ℝ) ≤ 1)]

/-- Claim C1 is violated by the code: `follow` assigns
`angle = atan2(0, 0) = 0` before the zero-length guard, so a degenerate reach
resets the angle to `0` instead of leaving it unchanged.  Concretely,
`Bone(10, 10, 40, angle = 1).follow(10, 10)` ends with angle `0 ≠ 1`. -/
theorem follow_degenerate_resets_angle :
    (Bone.follow (mkBone 10 10 40 1) 10 10).angle = 0 ∧
    (mkBone 10 10 40 1).angle = 1 ∧
    (Bone.follow (mkBone 10 10 40 1) 10 10).angle ≠ (mkBone 10 10 40 1).angle := by
  have h0 : (Bone.follow (mkBone 10 10 40 1) 10 10).angle = 0 := by
    have h := follow_self_eval (mkBone 10 10 40 1)
    rw [show Bone.follow (mkBone 10 10 40 1) 10 10 =
          Bone.update_visual_position { mkBone 10 10 40 1 with angle := 0 } from h]
    simp
  refine ⟨h0, rfl, ?_⟩
  rw [h0]
  norm_num [mkBone]

/-- Claim C1, amended (proved): a reach whose target coincides with the current
pivot leaves the pivot unchanged but unconditionally resets the angle to
`atan2(0, 0) = 0`; in particular `Bone(10, 10, 40, θ).follow(10, 10)` keeps
position `(10, 10)` and ends with angle `0` (unchanged only when `θ = 0`). -/
theorem follow_degenerate_keeps_pivot_resets_angle :
    (∀ b : Bone,
      (Bone.follow b b.x b.y).x = b.x ∧ (Bone.follow b b.x b.y).y = b.y ∧
      (Bone.follow b b.x b.y).angle = 0) ∧
    ∀ θ : ℝ,
      (Bone.follow (mkBone 10 10 40 θ) 10 10).x = 10 ∧
      (Bone.follow (mkBone 10 10 40 θ) 10 10).y = 10 ∧
      (Bone.follow (mkBone 10 10 40 θ) 10 10).angle = 0 := by
  have hgen : ∀ b : Bone,
      (Bone.follow b b.x b.y).x = b.x ∧ (Bone.follow b b.x b.y).y = b.y ∧
      (Bone.follow b b.x b.y).angle = 0 := by
    intro b
    rw [follow_self_eval b]
    simp
  exact ⟨hgen, fun θ => hgen (mkBone 10 10 40 θ)⟩

/-- Claim C2 is violated by the code: the anchor branches fire on the
lower-cased suffixes `_l.png`, `_left.png`, ..., not on bare `_l`, `_left`.
The name `arm_l` does end with `_l`, yet with a 3×4 sprite the code falls to
the dimension branch and yields `(0.5, 0.0)`, not the claimed `(1.0, 0.5)`. -/
theorem anchor_suffix_counterexample :
    ("_l".data.isSuffixOf "arm_l".data) = true ∧
    ((Bone.set_anchor_from_filename { mkBone 0 0 10 0 with sprite := some (3, 4) } "arm_l").anchor_x,
     (Bone.set_anchor_from_filename { mkBone 0 0 10 0 with sprite := some (3, 4) } "arm_l").anchor_y)
      = (0.5, 0) ∧
    ((0.5 : ℝ), (0 : ℝ)) ≠ ((1.0 : ℝ), (0.5 : ℝ)) := by
  have h1 : (dataEndsWith (strLowerData "arm_l") "_l.png" ||
             dataEndsWith (strLowerData "arm_l") "_left.png") = false := by decide
  have h2 : (dataEndsWith (strLowerData "arm_l") "_r.png" ||
             dataEndsWith (strLowerData "arm_l") "_right.png") = false := by decide
  have h3 : (dataEndsWith (strLowerData "arm_l") "_u.png" ||
             dataEndsWith (strLowerData "arm_l") "_up.png") = false := by decide
  have h4 : (dataEndsWith (strLowerData "arm_l") "_d.png" ||
             dataEndsWith (strLowerData "arm_l") "_down.png") = false := by decide
  refine ⟨by decide, ?_, ?_⟩
  · simp only [Bone.set_anchor_from_filename, h1, h2, h3, h4, Bool.false_eq_true, if_false]
    norm_num
  · intro hp
    have := congrArg Prod.fst hp
    norm_num at this

/-- Claim C2, amended (proved): the anchor resolution is the pure function of
`(name, sprite dimensions)` given by the spec's branch table once the suffixes
are read as the lower-cased, `.png`-qualified forms the code tests:
`_l.png`/`_left.png` → `(1.0, 0.5)`; `_r.png`/`_right.png` → `(0.0, 0.5)`;
`_u.png`/`_up.png` → `(0.5, 1.0)`; `_d.png`/`_down.png` → `(0.5, 0.0)`;
otherwise `(0.0, 0.5)` when `width ≥ height`, else `(0.5, 0.0)`; and
`(0.0, 0.5)` when no sprite dimensions are available. -/
theorem set_anchor_from_filename_matches_spec (b : Bone) (name : String) :
    ((Bone.set_anchor_from_filename b name).anchor_x,
     (Bone.set_anchor_from_filename b name).anchor_y)
      = resolveAnchorFromName name b.sprite := by
  unfold Bone.set_anchor_from_filename resolveAnchorFromName
  split_ifs <;> try simp
  rcases hsp : b.sprite with _ | ⟨w, h⟩
  · simp
  · simp only []
    split_ifs <;> simp

/-- Claim C10 (confirmed): when the bone's segment is degenerate
(`end_pos = pivot`, squared segment length zero), the hit test is still well
defined — Python's `... if C*C + D*D else 0` guard takes the clamp parameter
as `0` instead of dividing by zero — and the test reduces to the squared
distance from the query point to the pivot being strictly below `225`. -/
theorem contains_degenerate (b : Bone) (px py : ℝ) (h : b.end_pos = (b.x, b.y)) :
    b.segT px py = 0 ∧
    (b.contains px py ↔ (px - b.x) * (px - b.x) + (py - b.y) * (py - b.y) < 225) := by
  have hC : b.end_pos.1 - b.x = 0 := by rw [h]; simp
  have hD : b.end_pos.2 - b.y = 0 := by rw [h]; simp
  have ht : b.segT px py = 0 := by
    rw [Bone.segT, hC, hD]
    rw [if_pos (by norm_num : (0 : ℝ) * 0 + 0 * 0 = 0)]
    rw [min_eq_right (by norm_num : (0 : ℝ) ≤ 1), max_self]
  refine ⟨ht, ?_⟩
  rw [Bone.contains, Bone.distSqToSegment, ht, hC, hD]
  norm_num

/-- Claim C10 witness: the zero-length bone at `(3, 4)` (degenerate segment)
and query point `(3, 5)`. -/
theorem contains_degenerate_witness :
    Bone.segT (mkBone 3 4 0 1) 3 5 = 0 ∧
    ((mkBone 3 4 0 1).contains 3 5 ↔
      ((3 : ℝ) - 3) * (3 - 3) + ((5 : ℝ) - 4) * (5 - 4) < 225) :=
  contains_degenerate (mkBone 3 4 0 1) 3 5 (by simp [Bone.end_pos, mkBone])

/-- Claim C8 (confirmed): `contains` holds exactly when the distance from the
query point to the segment `[pivot, end_pos]` — the distance to the clamped
projection point, not to the infinite line — is strictly below `15`.  On the
bone from `(0,0)` to `(100,0)`: the point `(50, 15)` is at distance exactly
`15` and is rejected; the point `(50, 14.999)` is accepted. -/
theorem contains_iff_segment_dist_lt :
    (∀ (b : Bone) (px py : ℝ), b.contains px py ↔ b.distToSegment px py < 15) ∧
    Bone.distToSegment (mkBone 0 0 100 0) 50 15 = 15 ∧
    ¬ (mkBone 0 0 100 0).contains 50 15 ∧
    (mkBone 0 0 100 0).contains 50 14.999 := by
  have hiff : ∀ (b : Bone) (px py : ℝ), b.contains px py ↔ b.distToSegment px py < 15 := by
    intro b px py
    rw [Bone.contains, Bone.distToSegment, show (225 : ℝ) = 15 ^ 2 by norm_num]
    exact (Real.sqrt_lt' (by norm_num : (0 : ℝ) < 15)).symm
  have hseg : (mkBone 0 0 100 0).end_pos = (100, 0) := by
    norm_num [Bone.end_pos, mkBone]
  have ht : (mkBone 0 0 100 0).segT 50 15 = 0.5 := by
    rw [Bone.segT, hseg]
    norm_num [mkBone, min_def, max_def]
  have hsq : (mkBone 0 0 100 0).distSqToSegment 50 15 = 225 := by
    rw [Bone.distSqToSegment, ht, hseg]
    norm_num [mkBone]
  have ht2 : (mkBone 0 0 100 0).segT 50 14.999 = 0.5 := by
    rw [Bone.segT, hseg]
    norm_num [mkBone, min_def, max_def]
  refine ⟨hiff, ?_, ?_, ?_⟩
  · rw [Bone.distToSegment, hsq, show (225 : ℝ) = 15 ^ 2 by norm_num]
    exact Real.sqrt_sq (by norm_num : (0 : ℝ) ≤ 15)
  · rw [Bone.contains, hsq]
    norm_num
  · rw [Bone.contains, Bone.distSqToSegment, ht2, hseg]
    norm_num [mkBone]

/-- Claim C3 (confirmed): whenever the distance from the bone's pivot to the
target is nonzero, `follow` repositions the bone so that `end_pos` afterwards
equals the target exactly; and `Bone(0, 0, 100).follow(50, 0)` yields angle
`0`, pivot `(-50, 0)`, end position `(50, 0)`. -/
theorem follow_reaches_target :
    (∀ (b : Bone) (tx ty : ℝ),
      Real.sqrt ((tx - b.x) ^ 2 + (ty - b.y) ^ 2) ≠ 0 →
      (Bone.follow b tx ty).end_pos = (tx, ty)) ∧
    (Bone.follow (mkBone 0 0 100 0) 50 0).angle = 0 ∧
    (Bone.follow (mkBone 0 0 100 0) 50 0).x = -50 ∧
    (Bone.follow (mkBone 0 0 100 0) 50 0).y = 0 ∧
    (Bone.follow (mkBone 0 0 100 0) 50 0).end_pos = (50, 0) := by
  have hgen : ∀ (b : Bone) (tx ty : ℝ),
      Real.sqrt ((tx - b.x) ^ 2 + (ty - b.y) ^ 2) ≠ 0 →
      (Bone.follow b tx ty).end_pos = (tx, ty) := by
    intro b tx ty h
    have h0 : 0 < Real.sqrt ((tx - b.x) ^ 2 + (ty - b.y) ^ 2) :=
      lt_of_le_of_ne (Real.sqrt_nonneg _) (Ne.symm h)
    rw [follow_pos_eval b tx ty _ rfl h0, Bone.end_pos]
    simp only [update_visual_x, update_visual_y, update_visual_angle, update_visual_length]
    rw [cos_atan2 h, sin_atan2]
    rw [Prod.mk.injEq]
    constructor <;> ring
  have hd : Real.sqrt ((50 - (mkBone 0 0 100 0).x) ^ 2 + (0 - (mkBone 0 0 100 0).y) ^ 2) = 50 := by
    norm_num [mkBone, sqrt_2500]
  refine ⟨hgen, ?_, ?_, ?_, hgen (mkBone 0 0 100 0) 50 0 (by rw [hd]; norm_num)⟩
  · rw [follow_pos_eval (mkBone 0 0 100 0) 50 0 50 hd (by norm_num)]
    simp only [update_visual_angle]
    norm_num [mkBone]
    exact atan2_zero_of_pos (by norm_num)
  · rw [follow_pos_eval (mkBone 0 0 100 0) 50 0 50 hd (by norm_num)]
    simp only [update_visual_x]
    norm_num [mkBone]
  · rw [follow_pos_eval (mkBone 0 0 100 0) 50 0 50 hd (by norm_num)]
    simp only [update_visual_y]
    norm_num [mkBone]

/-- Claim C3 witness: the reach from `Bone(0, 0, 100)` to `(50, 0)` has
nonzero pivot-to-target distance and lands `end_pos` exactly on `(50, 0)`. -/
theorem follow_reaches_target_witness :
    (Bone.follow (mkBone 0 0 100 0) 50 0).end_pos = (50, 0) :=
  follow_reaches_target.1 (mkBone 0 0 100 0) 50 0
    (by norm_num [mkBone, sqrt_2500])

theorem fkAux_length (l : List Bone) : ∀ prev : Bone, (Chain.fkAux prev l).length = l.length := by
  induction l with
  | nil => intro prev; simp [Chain.fkAux]
  | cons b rest ih => intro prev; simp [Chain.fkAux, ih]

theorem fk_length (bones : List Bone) : (Chain.fk bones).length = bones.length := by
  cases bones with
  | nil => rfl
  | cons b rest => simp [Chain.fk, fkAux_length]

theorem fkAux_conn (l : List Bone) : ∀ (prev : Bone) (i : ℕ) (bi bj : Bone),
    (prev :: Chain.fkAux prev l)[i]? = some bi →
    (prev :: Chain.fkAux prev l)[i + 1]? = some bj →
    bj.x = bi.end_pos.1 ∧ bj.y = bi.end_pos.2 := by
  induction l with
  | nil =>
    intro prev i bi bj h1 h2
    rw [Chain.fkAux] at h2
    rcases i with _ | j <;> simp at h2
  | cons b rest ih =>
    intro prev i bi bj h1 h2
    rcases i with _ | j
    · simp only [List.getElem?_cons_zero, Option.some.injEq] at h1
      simp only [Chain.fkAux, List.getElem?_cons_succ, List.getElem?_cons_zero,
        Option.some.injEq] at h2
      subst h1
      subst h2
      constructor <;> simp [Bone.updateFrom]
    · rw [List.getElem?_cons_succ] at h1 h2
      simp only [Chain.fkAux] at h1 h2
      exact ih (Bone.updateFrom prev b) j bi bj h1 h2

/-- Claim C4 (confirmed): after `fk()`, every bone's pivot coincides with its
predecessor's end position — proved as exact equality in the real-number
model, which in particular is within the claimed `1e-6`. -/
theorem fk_connectivity (bones : List Bone) (i : ℕ) (h : i + 1 < bones.length) :
    ∃ bi bj, (Chain.fk bones)[i]? = some bi ∧ (Chain.fk bones)[i + 1]? = some bj ∧
      bj.x = bi.end_pos.1 ∧ bj.y = bi.end_pos.2 := by
  match bones with
  | [] => simp at h
  | b :: rest =>
    have hlen : (Chain.fk (b :: rest)).length = (b :: rest).length := fk_length _
    have hi : i < (Chain.fk (b :: rest)).length := by rw [hlen]; omega
    have hi1 : i + 1 < (Chain.fk (b :: rest)).length := by rw [hlen]; exact h
    obtain ⟨bi, h1⟩ : ∃ bi, (Chain.fk (b :: rest))[i]? = some bi :=
      ⟨_, List.getElem?_eq_getElem hi⟩
    obtain ⟨bj, h2⟩ : ∃ bj, (Chain.fk (b :: rest))[i + 1]? = some bj :=
      ⟨_, List.getElem?_eq_getElem hi1⟩
    refine ⟨bi, bj, h1, h2, ?_⟩
    rw [Chain.fk] at h1 h2
    exact fkAux_conn rest b i bi bj h1 h2

/-- Claim C4 witness: a concrete two-bone chain, checked at index `i = 0`. -/
theorem fk_connectivity_witness :
    ∃ bi bj, (Chain.fk [mkBone 0 0 5 0, mkBone 9 9 7 0])[0]? = some bi ∧
      (Chain.fk [mkBone 0 0 5 0, mkBone 9 9 7 0])[0 + 1]? = some bj ∧
      bj.x = bi.end_pos.1 ∧ bj.y = bi.end_pos.2 :=
  fk_connectivity [mkBone 0 0 5 0, mkBone 9 9 7 0] 0 (by simp)

theorem backwardAux_length (l : List Bone) :
    ∀ tx ty : ℝ, (Chain.backwardAux tx ty l).length = l.length := by
  induction l with
  | nil => intro tx ty; simp [Chain.backwardAux]
  | cons b rest ih => intro tx ty; simp [Chain.backwardAux, ih]

theorem backward_length (bones : List Bone) (tx ty : ℝ) :
    (Chain.backward bones tx ty).length = bones.length := by
  rw [Chain.backward]
  simp [backwardAux_length]

/-- Claim C6 (confirmed): `ik` saves the root bone's pivot before the backward
pass and restores it afterwards, so after `ik(tx, ty)` the root bone's pivot
equals its value immediately before the call, for every chain and target. -/
theorem ik_fixes_root_pivot (b0 : Bone) (rest : List Bone) (tx ty : ℝ) :
    ∃ c0 crest, Chain.ik (b0 :: rest) tx ty = c0 :: crest ∧ c0.x = b0.x ∧ c0.y = b0.y := by
  obtain ⟨d0, drest, hB⟩ : ∃ d0 drest, Chain.backward (b0 :: rest) tx ty = d0 :: drest := by
    have h := backward_length (b0 :: rest) tx ty
    cases hC : Chain.backward (b0 :: rest) tx ty with
    | nil => rw [hC] at h; simp at h
    | cons d0 drest => exact ⟨d0, drest, rfl⟩
  refine ⟨Bone.update_visual_position { d0 with x := b0.x, y := b0.y },
    Chain.forwardAux (Bone.update_visual_position { d0 with x := b0.x, y := b0.y }) drest,
    ?_, ?_, ?_⟩
  · simp only [Chain.ik, hB]
  · simp
  · simp

theorem atan2_zero_fifty : atan2 0 50 = 0 := atan2_zero_of_pos (by norm_num)

theorem forwardStep_pos_eval (prev b : Bone) (d : ℝ)
    (hd : Real.sqrt ((b.end_pos.1 - prev.end_pos.1) * (b.end_pos.1 - prev.end_pos.1) +
            (b.end_pos.2 - prev.end_pos.2) * (b.end_pos.2 - prev.end_pos.2)) = d)
    (h0 : 0 < d) :
    Chain.forwardStep prev b = Bone.update_visual_position
      { b with
          x := prev.end_pos.1,
          y := prev.end_pos.2,
          angle := atan2 ((b.end_pos.2 - prev.end_pos.2) / d * b.length)
                         ((b.end_pos.1 - prev.end_pos.1) / d * b.length) } := by
  rw [Chain.forwardStep, hd, if_pos h0]

/-- Claim C5 (confirmed): the 2-bone IK chain with lengths `[50, 50]` and root
pivot `(0, 0)`, laid out by chain construction, solves `ik(100, 0)` with the
last bone's end position landing exactly on `(100, 0)` — in particular within
the claimed `1e-6`. -/
theorem ik_two_bone_collinear_reaches :
    ∃ tip, (Chain.ik (Chain.mkChainBones 0 0 [50, 50]) 100 0).getLast? = some tip ∧
      tip.end_pos = (100, 0) ∧
      Real.sqrt ((tip.end_pos.1 - 100) ^ 2 + (tip.end_pos.2 - 0) ^ 2) < 1e-6 := by
  have hch : Chain.mkChainBones 0 0 [50, 50] =
      [(⟨0, 0, 50, 50, 0, 0.5, 0.5, 0, 0, none⟩ : Bone),
       (⟨50, 0, 50, 50, 0, 0.5, 0.5, 50, 0, none⟩ : Bone)] := by
    simp only [Chain.mkChainBones, List.map, Chain.fk, Chain.fkAux, Bone.updateFrom,
      Bone.end_pos, mkBone, Bone.update_visual_position]
    norm_num
  have hf1 : Bone.follow (⟨50, 0, 50, 50, 0, 0.5, 0.5, 50, 0, none⟩ : Bone) 100 0 =
      (⟨50, 0, 50, 50, 0, 0.5, 0.5, 50, 0, none⟩ : Bone) := by
    rw [follow_pos_eval _ 100 0 50 (by norm_num [sqrt_2500]) (by norm_num)]
    simp only [Bone.update_visual_position]
    norm_num [atan2_zero_fifty]
  have hf0 : Bone.follow (⟨0, 0, 50, 50, 0, 0.5, 0.5, 0, 0, none⟩ : Bone) 50 0 =
      (⟨0, 0, 50, 50, 0, 0.5, 0.5, 0, 0, none⟩ : Bone) := by
    rw [follow_pos_eval _ 50 0 50 (by norm_num [sqrt_2500]) (by norm_num)]
    simp only [Bone.update_visual_position]
    norm_num [atan2_zero_fifty]
  have hbw : Chain.backward
      [(⟨0, 0, 50, 50, 0, 0.5, 0.5, 0, 0, none⟩ : Bone),
       (⟨50, 0, 50, 50, 0, 0.5, 0.5, 50, 0, none⟩ : Bone)] 100 0 =
      [(⟨0, 0, 50, 50, 0, 0.5, 0.5, 0, 0, none⟩ : Bone),
       (⟨50, 0, 50, 50, 0, 0.5, 0.5, 50, 0, none⟩ : Bone)] := by
    rw [Chain.backward]
    simp [Chain.backwardAux, hf1, hf0]
  have hfs : Chain.forwardStep (⟨0, 0, 50, 50, 0, 0.5, 0.5, 0, 0, none⟩ : Bone)
      (⟨50, 0, 50, 50, 0, 0.5, 0.5, 50, 0, none⟩ : Bone) =
      (⟨50, 0, 50, 50, 0, 0.5, 0.5, 50, 0, none⟩ : Bone) := by
    rw [forwardStep_pos_eval _ _ 50
      (by norm_num [Bone.end_pos, Real.cos_zero, Real.sin_zero, sqrt_2500]) (by norm_num)]
    simp only [Bone.update_visual_position, Bone.end_pos]
    norm_num [atan2_zero_fifty]
  have hfin : Chain.ik (Chain.mkChainBones 0 0 [50, 50]) 100 0 =
      [(⟨0, 0, 50, 50, 0, 0.5, 0.5, 0, 0, none⟩ : Bone),
       (⟨50, 0, 50, 50, 0, 0.5, 0.5, 50, 0, none⟩ : Bone)] := by
    rw [hch]
    simp only [Chain.ik, hbw]
    simp [Chain.forwardAux, Bone.update_visual_position, hfs]
  refine ⟨(⟨50, 0, 50, 50, 0, 0.5, 0.5, 50, 0, none⟩ : Bone), ?_, ?_, ?_⟩
  · rw [hfin]
    rfl
  · norm_num [Bone.end_pos]
  · norm_num [Bone.end_pos, Real.sqrt_zero]

/-- Claim C9 is violated by the code: `move` snaps every chain's root pivot to
the chain's world origin, discarding any explicit root position.  For a
skeleton at `(0, 0)` owning an FK chain whose root bone sits at `(5, 7)` — the
state `add_chain` with explicit bone positions produces, since `add_chain`
never calls `update_world_positions` — `move(1, 0)` then `move(-1, 0)` leaves
the root pivot at `(0, 0) ≠ (5, 7)`. -/
theorem skeleton_move_round_trip_counterexample :
    customSkeleton.chains.map chainRootPivot = [some (5, 7)] ∧
    ((customSkeleton.move 1 0).move (-1) 0).chains.map chainRootPivot = [some (0, 0)] ∧
    (some ((5 : ℝ), (7 : ℝ)) : Option (ℝ × ℝ)) ≠ some (0, 0) := by
  refine ⟨?_, ?_, ?_⟩
  · simp [customSkeleton, chainRootPivot, mkBone]
  · simp only [customSkeleton, Skeleton.move, List.map, Chain.update_world_positions,
      Chain.fk, Chain.fkAux, Bone.update_visual_position, mkBone, chainRootPivot]
    norm_num
  · norm_num [Option.some.injEq, Prod.mk.injEq]

/-- Claim C9, amended (proved): provided the FK chain's root bone pivot sits at
the chain's world origin before the first move — true after skeleton
construction or any `update_world_positions`, but not forced after a bare
`add_chain` with explicit positions — `move(dx, dy)` followed by
`move(-dx, -dy)` restores the chain's root bone's world pivot exactly. -/
theorem skeleton_move_round_trip (s : Skeleton) (i : ℕ) (c : Chain) (b0 : Bone)
    (rest : List Bone) (dx dy : ℝ)
    (hc : s.chains[i]? = some c) (hb : c.bones = b0 :: rest) (hik : c.is_ik = false)
    (hx : b0.x = c.local_x + s.x) (hy : b0.y = c.local_y + s.y) :
    (((s.move dx dy).move (-dx) (-dy)).chains[i]?).map chainRootPivot
      = some (some (b0.x, b0.y)) := by
  obtain ⟨sname, sx, sy, schains⟩ := s
  obtain ⟨cbones, clx, cly, cik, ctgt⟩ := c
  simp only at hc hb hik hx hy
  subst hb
  subst hik
  simp only [Skeleton.move, List.getElem?_map, hc, Option.map_some']
  simp only [Chain.update_world_positions, Chain.fk, Bool.false_eq_true, if_false,
    chainRootPivot, update_visual_x, update_visual_y]
  simp [hx, hy]

/-- Claim C9 witness (for the amended claim): a skeleton at `(2, 3)` owning a
one-bone FK chain whose root pivot `(2, 3)` equals its chain world origin;
the `(1, 4)` round trip restores the root pivot `(2, 3)` exactly. -/
theorem skeleton_move_round_trip_witness :
    ((((Skeleton.mk "w" 2 3 [Chain.mk [mkBone 2 3 10 0] 0 0 false (0, 0)]).move 1 4).move
        (-1) (-4)).chains[0]?).map chainRootPivot = some (some (2, 3)) :=
  skeleton_move_round_trip (Skeleton.mk "w" 2 3 [Chain.mk [mkBone 2 3 10 0] 0 0 false (0, 0)])
    0 (Chain.mk [mkBone 2 3 10 0] 0 0 false (0, 0)) (mkBone 2 3 10 0) [] 1 4
    rfl rfl rfl (by norm_num [mkBone]) (by norm_num [mkBone])
